import Mathlib

/-!
Shallow embedding of the ADXL345 driver (files `adxl345.py`, `measure.py`,
`chunk_read.py`) and verification of its specification claims.

Registers hold one byte.  Python integers are arbitrary precision; every
byte-level computation in the driver stays below 2^8, so we model values as
`Nat` (signed decode as `Int`) and make the 8-bit restrictions explicit where
Python's infinite-width operators (`-mask`, `~mask`) are intersected with a
byte.
-/

/-- Python `int.bit_length()`: the number of bits needed to represent `n`,
with `bit_length 0 = 0`.  Structural recursion on a fuel argument (`n` halves
each step, so `n` itself is enough fuel). -/
def bit_length_fuel : Nat → Nat → Nat
  | 0, _ => 0
  | fuel + 1, n => if n = 0 then 0 else bit_length_fuel fuel (n / 2) + 1

/-- Python `int.bit_length()`. -/
def bit_length (n : Nat) : Nat := bit_length_fuel n n

/-- Source: `Register.read` / `Register.write` in `adxl345.py`:
`shift_amount = (mask & -mask).bit_length() - 1`.
For `0 < mask < 256`, `mask & -mask` (Python two's complement on an
arbitrary-precision int) equals `mask &&& (256 - mask)`, the lowest set
bit of the mask. -/
def shift_amount (mask : Nat) : Nat :=
  bit_length (mask &&& (256 - mask)) - 1

/-- Source: `adxl345.py`, `Register.read`, the line
`return (reg_value & mask) >> shift_amount`. -/
def field_extract (mask reg_value : Nat) : Nat :=
  (reg_value &&& mask) >>> shift_amount mask

/-- Source: `adxl345.py`, `Register.write`, the read-modify-write line
`reg_value = (reg_value & ~mask) | ((value << shift_amount) & mask)`.
`reg_value` is a byte read from the bus, so Python's infinite-width `~mask`
intersected with it equals the 8-bit complement `255 ^^^ mask`. -/
def field_insert (mask value reg_value : Nat) : Nat :=
  (reg_value &&& (255 ^^^ mask)) ||| ((value <<< shift_amount mask) &&& mask)

/-- The i2c bus as seen by a register: `read_byte_data(device, register)`
returns the current byte of that register. -/
structure I2CBus where
  read_byte_data : Nat → Nat → Nat

/-- Bus transactions issued by a register operation (smbus2 calls). -/
inductive BusOp where
  | readByte (device register : Nat)
  | writeByte (device register value : Nat)
  deriving DecidableEq, Repr

/-- Errors raised by `Register.read` / `Register.write` in `adxl345.py`:
`RuntimeError("Cannot write to read-only register")`,
`RuntimeError("Register not bound to a bus")`, and the `KeyError` from
`self.fields[field]` on an unknown field name. -/
inductive RegError where
  | readOnlyRegister
  | unboundRegister
  | unknownField
  deriving DecidableEq, Repr

/-- Source: class `Register` in `adxl345.py`.  `device_address` and `bus`
are `None` until `_bind` is called. -/
structure Register where
  device_address : Option Nat
  bus : Option I2CBus
  register_address : Nat
  fields : List (String × Nat)
  read_only : Bool

/-- Source: `Register._bind` in `adxl345.py`. -/
def Register.bind (r : Register) (bus : I2CBus) (device_address : Nat) : Register :=
  { r with bus := some bus, device_address := some device_address }

/-- Source: `Register.read` in `adxl345.py`.  Returns the result together
with the list of bus transactions performed.  The unbound check comes first,
then the field lookup, then the single byte read. -/
def Register.read (r : Register) (field : String) :
    Except RegError Nat × List BusOp :=
  match r.bus with
  | none => (Except.error RegError.unboundRegister, [])
  | some bus =>
    match r.fields.lookup field with
    | none => (Except.error RegError.unknownField, [])
    | some mask =>
      let dev := r.device_address.getD 0
      let reg_value := bus.read_byte_data dev r.register_address
      (Except.ok (field_extract mask reg_value),
       [BusOp.readByte dev r.register_address])

/-- Source: `Register.write` in `adxl345.py`.  The read-only check comes
first, then the unbound check, then the field lookup, then the
read-modify-write pair of bus transactions. -/
def Register.write (r : Register) (field : String) (value : Nat) :
    Except RegError Unit × List BusOp :=
  if r.read_only then (Except.error RegError.readOnlyRegister, [])
  else
    match r.bus with
    | none => (Except.error RegError.unboundRegister, [])
    | some bus =>
      match r.fields.lookup field with
      | none => (Except.error RegError.unknownField, [])
      | some mask =>
        let dev := r.device_address.getD 0
        let reg_value := bus.read_byte_data dev r.register_address
        let reg_value2 := field_insert mask value reg_value
        (Except.ok (),
         [BusOp.readByte dev r.register_address,
          BusOp.writeByte dev r.register_address reg_value2])

/-!  The `Range` enumeration of `adxl345.py`.

```
class Range(IntEnum):
    RANGE_FULL = 0b1 # Default
    RANGE_16g  = 0b11
    RANGE_8g   = 0b10
    RANGE_4g   = 0b01
    RANGE_2g   = 0b00
```

Python `enum` semantics: a member whose value duplicates an earlier one is an
ALIAS of the earlier member.  `RANGE_4g = 0b01` duplicates
`RANGE_FULL = 0b1`, so the enumeration has four actual members and
`Range.RANGE_4g` is the member `RANGE_FULL` (in particular its `.name` is
`"RANGE_FULL"`). -/

/-- The actual (canonical) members of the Python `Range` enumeration. -/
inductive RangeMember where
  | RANGE_FULL
  | RANGE_16g
  | RANGE_8g
  | RANGE_2g
  deriving DecidableEq, Repr

/-- The integer value of each `Range` member, from `adxl345.py`. -/
def RangeMember.value : RangeMember → Nat
  | .RANGE_FULL => 0b1
  | .RANGE_16g => 0b11
  | .RANGE_8g => 0b10
  | .RANGE_2g => 0b00

/-- The `.name` of each `Range` member. -/
def RangeMember.name : RangeMember → String
  | .RANGE_FULL => "RANGE_FULL"
  | .RANGE_16g => "RANGE_16g"
  | .RANGE_8g => "RANGE_8g"
  | .RANGE_2g => "RANGE_2g"

/-- Attribute lookup `Range.<name>` for the five names written in the class
body of `Range`.  `RANGE_4g` resolves to the `RANGE_FULL` member because its
value `0b01` duplicates `RANGE_FULL = 0b1` (Python enum aliasing). -/
def Range.resolve : String → Option RangeMember
  | "RANGE_FULL" => some RangeMember.RANGE_FULL
  | "RANGE_16g" => some RangeMember.RANGE_16g
  | "RANGE_8g" => some RangeMember.RANGE_8g
  | "RANGE_4g" => some RangeMember.RANGE_FULL
  | "RANGE_2g" => some RangeMember.RANGE_2g
  | _ => none

/-- Python `int(string)` restricted to what the `Range.g` / `OutputDataRate.hz`
properties feed it: returns `none` (a `ValueError`) unless the string is a
non-empty string of decimal digits. -/
def pyIntOfString (s : List Char) : Option Nat :=
  if s ≠ [] ∧ s.all Char.isDigit then
    some (s.foldl (fun a c => a * 10 + (c.toNat - 48)) 0)
  else
    none

/-- Source: the `g` property of `Range` in `adxl345.py`:
`return int(self.name[6:-1])`.  The slice `[6:-1]` drops the first six
characters and the last one.  `none` models the `ValueError` raised by
`int` on a non-numeric slice (as happens for the name `"RANGE_FULL"`). -/
def RangeMember.g (m : RangeMember) : Option Nat :=
  pyIntOfString ((m.name.data.drop 6).dropLast)

/-!  Acceleration read-out, `ADXL345.get_accel` in `adxl345.py`. -/

/-- Source: `ADXL345._to_signed_16bit` in `adxl345.py`:
`if value & 0x8000: return value - 65536` else `return value`. -/
def to_signed_16bit (value : Nat) : Int :=
  if value &&& 0x8000 ≠ 0 then (value : Int) - 65536 else (value : Int)

/-- Source: `ADXL345.get_accel`, the constant
`SCALE_FACTOR = 0.0039 * 9.8`.  The Python source multiplies the
3.9 mg/LSB full-resolution sensitivity by a standard-gravity factor 9.8;
we model the decimal literals exactly as rationals. -/
def SCALE_FACTOR : ℚ := 0.0039 * 9.8

/-- Source: `ADXL345.get_accel`, the three decode lines
`x = self._to_signed_16bit((data[1] << 8) | data[0])` (and likewise for
`y`, `z` from bytes 2,3 and 4,5).  `data` is the 6-byte block returned by
`read_i2c_block_data`; out-of-range indexing (impossible on a 6-byte block)
is modelled as 0. -/
def get_accel_raw (data : List Nat) : Int × Int × Int :=
  let d := fun i => data.getD i 0
  (to_signed_16bit ((d 1 <<< 8) ||| d 0),
   to_signed_16bit ((d 3 <<< 8) ||| d 2),
   to_signed_16bit ((d 5 <<< 8) ||| d 4))

/-- Source: `ADXL345.get_accel` in `adxl345.py`: decodes the 6-byte block and
returns `(x * SCALE_FACTOR, y * SCALE_FACTOR, z * SCALE_FACTOR)`.  The
method reads `self`, whose configured range is `g_range`; the computation
never consults it (the scale factor is one fixed constant). -/
def get_accel (g_range : RangeMember) (data : List Nat) : ℚ × ℚ × ℚ :=
  let raw := get_accel_raw data
  let _ := g_range
  ((raw.1 : ℚ) * SCALE_FACTOR, (raw.2.1 : ℚ) * SCALE_FACTOR,
   (raw.2.2 : ℚ) * SCALE_FACTOR)

/-!  The registers defined in `ADXL345.__init__` in `adxl345.py`, in their
state just after construction of the `Register` objects (before
`_bind_registers` runs, `bus` and `device_address` are `None`). -/

/-- Source: `self.bandwidth_rate = Register(0x2C, False, {...})`. -/
def ADXL345.bandwidth_rate : Register :=
  { device_address := none, bus := none, register_address := 0x2C,
    read_only := false,
    fields := [("LOW_POWER", 0x10), ("RATE", 0x0F)] }

/-- Source: `self.power_control = Register(0x2D, False, {...})`. -/
def ADXL345.power_control : Register :=
  { device_address := none, bus := none, register_address := 0x2D,
    read_only := false,
    fields := [("LINK", 0x20), ("AUTO_SLEEP", 0x10), ("MEASURE", 0x08),
               ("SLEEP", 0x04), ("WAKEUP", 0x03)] }

/-- Source: `self.interrupt_source = Register(0x30, True, {...})`. -/
def ADXL345.interrupt_source : Register :=
  { device_address := none, bus := none, register_address := 0x30,
    read_only := true,
    fields := [("DATA_READY", 0x80), ("SINGLE_TAP", 0x40),
               ("DOUBLE_TAP", 0x20), ("ACTIVITY", 0x10),
               ("INACTIVITY", 0x08), ("FREE_FALL", 0x04),
               ("WATERMARK", 0x02), ("OVERRUN", 0x01)] }

/-- Source: `self.data_format = Register(0x31, False, {...})`. -/
def ADXL345.data_format : Register :=
  { device_address := none, bus := none, register_address := 0x31,
    read_only := false,
    fields := [("SELF_TEST", 0x80), ("SPI", 0x40), ("INT_INVERT", 0x20),
               ("FULL_RES", 0x08), ("JUSITFY", 0x04), ("RANGE", 0x03)] }

/-- Source: `self.fifo_status = Register(0x39, True, {...})`. -/
def ADXL345.fifo_status : Register :=
  { device_address := none, bus := none, register_address := 0x39,
    read_only := true,
    fields := [("FIFO_TRIG", 0x80), ("ENTRIES", 0x3F)] }

/-- Source: `self.fifo_ctl = Register(0x38, False, {...})`. -/
def ADXL345.fifo_ctl : Register :=
  { device_address := none, bus := none, register_address := 0x38,
    read_only := false,
    fields := [("MODE", 0xC0), ("TRIGGER", 0x20), ("SAMPLES", 0x1F)] }

example : RangeMember.g RangeMember.RANGE_16g = some 16 := by decide
example : RangeMember.g RangeMember.RANGE_FULL = none := by decide
example : get_accel_raw [0x00, 0x00, 0xFF, 0x7F, 0x00, 0x80] =
    (0, 32767, -32768) := by decide
example : (get_accel RangeMember.RANGE_FULL [0xE8, 0x03, 0, 0, 0, 0]).1 =
    1000 * (39 / 10000) * (49 / 5) := by
  unfold get_accel
  rw [show get_accel_raw [0xE8, 0x03, 0, 0, 0, 0] = (1000, 0, 0) from by decide]
  norm_num [SCALE_FACTOR]

/-!  The acquisition loop, `read_continuous` in `measure.py`.

Each pass of the `while` loop reads three register fields (`ENTRIES`,
`WATERMARK`, `OVERRUN`) and possibly calls `get_accel()`.  We model one pass
by the values those reads observe; timing (`time.time`, `time.sleep`) only
decides how many passes occur, so a run is a finite list of observations. -/

/-- What one polling iteration of the `while` loop observes on the device:
the three field reads and the sample `get_accel()` would return. -/
structure PollObs where
  num_entries : Nat
  watermark_flag : Nat
  fifo_overflow : Nat
  accel : ℚ × ℚ × ℚ

/-- The mutable loop state of `read_continuous`:
`overflow_count = 0`, `read_count = 0`, `samples = []`,
`last_watermark = False`. -/
structure LoopState where
  overflow_count : Nat
  read_count : Nat
  samples : List (ℚ × ℚ × ℚ)
  last_watermark : Bool

/-- Source: the body of the `while` loop in `read_continuous`
(`measure.py`).  In order:
`overflow_indicator = fifo_overflow and num_entries > adxl.watermark`;
`if overflow_indicator: overflow_count += 1`;
`last_watermark = watermark_flag`;
`if num_entries > 10: read_count += 1; samples.append(adxl.get_accel())`
(the `else: continue` only skips a sleep).  Field reads return numbers, so
Python truthiness is `≠ 0`. -/
def loop_step (watermark : Nat) (st : LoopState) (o : PollObs) : LoopState :=
  let st1 :=
    if o.fifo_overflow ≠ 0 ∧ watermark < o.num_entries then
      { st with overflow_count := st.overflow_count + 1 }
    else st
  let st2 := { st1 with last_watermark := o.watermark_flag ≠ 0 }
  if 10 < o.num_entries then
    { st2 with read_count := st2.read_count + 1,
               samples := st2.samples ++ [o.accel] }
  else st2

/-- What `read_continuous` produces and reports at the end of a run: the
timestamped samples it returns and the summary numbers it prints. -/
structure RunResult where
  samples : List (ℚ × ℚ × ℚ × ℚ)
  overflow_count : Nat
  read_count : Nat
  data_loss : ℚ

/-- Source: the final `data_loss` line of `read_continuous`:
`data_loss = max(0, duration_seconds * sample_rate - len(timestamped_samples))`. -/
def data_loss_formula (duration_seconds rate : ℚ) (collected : Nat) : ℚ :=
  max 0 (duration_seconds * rate - (collected : ℚ))

/-- Source: `read_continuous(adxl, duration_seconds)` in `measure.py`.
`rate` is `adxl.odr.hz` and `watermark` is `adxl.watermark`; `obs` lists the
observations of the successive polling iterations that fit in the duration.
After the loop, `timestamped_samples` attaches `i * sample_period` to the
`i`-th sample and the data-loss summary is computed from its length. -/
def read_continuous (watermark : Nat) (duration_seconds rate : ℚ)
    (obs : List PollObs) : RunResult :=
  let final := obs.foldl (loop_step watermark)
    { overflow_count := 0, read_count := 0, samples := [],
      last_watermark := false }
  let sample_period : ℚ := 1 / rate
  let timestamped := final.samples.enum.map
    (fun p => ((p.1 : ℚ) * sample_period, p.2.1, p.2.2.1, p.2.2.2))
  { samples := timestamped,
    overflow_count := final.overflow_count,
    read_count := final.read_count,
    data_loss := data_loss_formula duration_seconds rate timestamped.length }

/-!  Helper lemmas about the acquisition loop. -/

lemma loop_step_overflow_count (wm : Nat) (st : LoopState) (o : PollObs) :
    (loop_step wm st o).overflow_count =
      if o.fifo_overflow ≠ 0 ∧ wm < o.num_entries then st.overflow_count + 1
      else st.overflow_count := by
  unfold loop_step
  split <;> split <;> rfl

lemma loop_step_samples (wm : Nat) (st : LoopState) (o : PollObs) :
    (loop_step wm st o).samples =
      if 10 < o.num_entries then st.samples ++ [o.accel] else st.samples := by
  unfold loop_step
  split <;> split <;> rfl

lemma foldl_overflow_count (wm : Nat) (obs : List PollObs) (st : LoopState) :
    (obs.foldl (loop_step wm) st).overflow_count =
      st.overflow_count +
        (obs.filter
          (fun o => decide (o.fifo_overflow ≠ 0 ∧ wm < o.num_entries))).length := by
  induction obs generalizing st with
  | nil => simp
  | cons o rest ih =>
    rw [List.foldl_cons, ih, List.filter_cons, loop_step_overflow_count]
    by_cases h : o.fifo_overflow ≠ 0 ∧ wm < o.num_entries
    · simp [h, Nat.add_comm, Nat.add_assoc]
    · simp [h]

lemma foldl_samples (wm : Nat) (obs : List PollObs) (st : LoopState) :
    (obs.foldl (loop_step wm) st).samples =
      st.samples ++
        (obs.filter (fun o => decide (10 < o.num_entries))).map PollObs.accel := by
  induction obs generalizing st with
  | nil => simp
  | cons o rest ih =>
    rw [List.foldl_cons, ih, List.filter_cons, loop_step_samples]
    by_cases h : 10 < o.num_entries
    · simp [h]
    · simp [h]

/-- A run of three polling iterations on each of which the OVERRUN flag
reads as set (value 1) while the FIFO entry count reads 0. -/
def three_overrun_obs : List PollObs :=
  List.replicate 3
    { num_entries := 0, watermark_flag := 0, fifo_overflow := 1,
      accel := (0, 0, 0) }

/-- C1, counterexample: with the default watermark 28, a run in which the
FIFO overrun flag is observed set on 3 distinct polling iterations but the
entry count reads 0 ends with `overflow_count = 0`, not 3: the counter is
NOT incremented regardless of the current FIFO entry count. -/
theorem overflow_count_ignores_flag_when_fifo_low :
    (read_continuous 28 10 100 three_overrun_obs).overflow_count = 0 ∧
    three_overrun_obs.length = 3 ∧
    (three_overrun_obs.all (fun o => o.fifo_overflow != 0)) = true := by
  refine ⟨?_, by decide, by decide⟩
  rw [show (read_continuous 28 10 100 three_overrun_obs).overflow_count =
      (three_overrun_obs.foldl (loop_step 28)
        { overflow_count := 0, read_count := 0, samples := [],
          last_watermark := false }).overflow_count from rfl]
  rw [foldl_overflow_count]
  decide

/-- C1, amended: the overflow counter is incremented exactly once for each
polling iteration on which the FIFO overrun interrupt flag reads as set AND
the FIFO entry count exceeds the configured watermark, and is unchanged on
every other iteration: the final `overflow_count` equals the number of such
iterations in the run. -/
theorem overflow_count_counts_gated_iterations (watermark : Nat)
    (duration_seconds rate : ℚ) (obs : List PollObs) :
    (read_continuous watermark duration_seconds rate obs).overflow_count =
      (obs.filter
        (fun o =>
          decide (o.fifo_overflow ≠ 0 ∧ watermark < o.num_entries))).length := by
  rw [show (read_continuous watermark duration_seconds rate obs).overflow_count =
      (obs.foldl (loop_step watermark)
        { overflow_count := 0, read_count := 0, samples := [],
          last_watermark := false }).overflow_count from rfl]
  rw [foldl_overflow_count]
  exact Nat.zero_add _

/-- C9: at the end of every acquisition run the reported `data_loss` equals
`max(0, duration × rate − collected)` where `collected` is the number of
returned samples (one per polling iteration that saw more than 10 FIFO
entries); at rate 100 Hz over 10 s, collecting 1000 samples gives loss 0 and
collecting 950 gives loss 50. -/
theorem data_loss_is_expected_minus_collected (watermark : Nat)
    (duration_seconds rate : ℚ) (obs : List PollObs) :
    (read_continuous watermark duration_seconds rate obs).data_loss =
      data_loss_formula duration_seconds rate
        (read_continuous watermark duration_seconds rate obs).samples.length ∧
    (read_continuous watermark duration_seconds rate obs).samples.length =
      (obs.filter (fun o => decide (10 < o.num_entries))).length ∧
    data_loss_formula 10 100 1000 = 0 ∧
    data_loss_formula 10 100 950 = 50 := by
  refine ⟨rfl, ?_, ?_, ?_⟩
  · rw [show (read_continuous watermark duration_seconds rate obs).samples =
        ((obs.foldl (loop_step watermark)
          { overflow_count := 0, read_count := 0, samples := [],
            last_watermark := false }).samples.enum.map
          (fun p => ((p.1 : ℚ) * (1 / rate), p.2.1, p.2.2.1, p.2.2.2)))
        from rfl]
    rw [List.length_map, List.enum_length, foldl_samples]
    simp
  · norm_num [data_loss_formula]
  · norm_num [data_loss_formula]

/-!  Error handling of `Register.read` / `Register.write`. -/

/-- C6: for every register marked read-only, `write` fails with the
read-only-register error for every field name and value, and issues zero bus
transactions (no byte read and no byte write). -/
theorem write_read_only_no_bus_traffic (r : Register)
    (h : r.read_only = true) (field : String) (value : Nat) :
    Register.write r field value =
      (Except.error RegError.readOnlyRegister, ([] : List BusOp)) := by
  unfold Register.write
  rw [h]
  rfl

/-- C6, witness: writing any value to the DATA_READY field of the read-only
`INT_SOURCE` register fails with the read-only error and an empty bus
trace. -/
theorem write_read_only_no_bus_traffic_witness :
    Register.write ADXL345.interrupt_source ("DATA_READY") 1 =
      (Except.error RegError.readOnlyRegister, ([] : List BusOp)) :=
  write_read_only_no_bus_traffic ADXL345.interrupt_source rfl ("DATA_READY") 1

/-- C7: for every register not bound to a bus, `read` fails with the
unbound-register error, and `write` on a writable register fails with the
unbound-register error; in both cases no bus transaction is attempted. -/
theorem unbound_register_fails_before_bus (r : Register)
    (h : r.bus = none) :
    (∀ field, Register.read r field =
      (Except.error RegError.unboundRegister, ([] : List BusOp))) ∧
    (r.read_only = false → ∀ field value, Register.write r field value =
      (Except.error RegError.unboundRegister, ([] : List BusOp))) := by
  constructor
  · intro field
    unfold Register.read
    rw [h]
  · intro hro field value
    unfold Register.write
    rw [hro, h]
    rfl

/-- C7, witness: on the freshly constructed (unbound, writable) `BW_RATE`
register, reading the RATE field and writing the default rate code both
fail with the unbound-register error and an empty bus trace. -/
theorem unbound_register_fails_before_bus_witness :
    Register.read ADXL345.bandwidth_rate ("RATE") =
      (Except.error RegError.unboundRegister, ([] : List BusOp)) ∧
    Register.write ADXL345.bandwidth_rate ("RATE") 0b1010 =
      (Except.error RegError.unboundRegister, ([] : List BusOp)) :=
  ⟨(unbound_register_fails_before_bus ADXL345.bandwidth_rate rfl).1 ("RATE"),
   (unbound_register_fails_before_bus ADXL345.bandwidth_rate rfl).2 rfl
     ("RATE") 0b1010⟩

/-- C10: on a register that is both read-only and unbound, `write` fails
with the read-only-register error (the read-only check precedes the unbound
check) while `read` fails with the unbound-register error. -/
theorem read_only_check_precedes_unbound_check (r : Register)
    (h1 : r.read_only = true) (h2 : r.bus = none) :
    (∀ field value, Register.write r field value =
      (Except.error RegError.readOnlyRegister, ([] : List BusOp))) ∧
    (∀ field, Register.read r field =
      (Except.error RegError.unboundRegister, ([] : List BusOp))) := by
  constructor
  · intro field value
    unfold Register.write
    rw [h1]
    rfl
  · intro field
    unfold Register.read
    rw [h2]

/-- C10, witness: the freshly constructed `INT_SOURCE` register is read-only
and unbound; writing OVERRUN gives the read-only error, reading OVERRUN
gives the unbound error. -/
theorem read_only_check_precedes_unbound_check_witness :
    Register.write ADXL345.interrupt_source ("OVERRUN") 0 =
      (Except.error RegError.readOnlyRegister, ([] : List BusOp)) ∧
    Register.read ADXL345.interrupt_source ("OVERRUN") =
      (Except.error RegError.unboundRegister, ([] : List BusOp)) :=
  ⟨(read_only_check_precedes_unbound_check ADXL345.interrupt_source
      rfl rfl).1 ("OVERRUN") 0,
   (read_only_check_precedes_unbound_check ADXL345.interrupt_source
      rfl rfl).2 ("OVERRUN")⟩

/-!  The bit-field codec: algebraic facts about `field_extract` and
`field_insert`. -/

/-- For every non-zero 8-bit mask, every bit of the mask strictly below the
computed shift amount is clear (the shift amount is the index of the lowest
set bit). -/
lemma shift_amount_testBit_false :
    ∀ m < 256, m ≠ 0 → ∀ i < shift_amount m, m.testBit i = false := by
  set_option maxRecDepth 4096 in decide

/-- The 8-bit complement of an 8-bit mask is disjoint from the mask. -/
lemma compl_and_self : ∀ m < 256, (255 ^^^ m) &&& m = 0 := by
  set_option maxRecDepth 4096 in decide

lemma or_and_distrib (x y m : Nat) :
    (x ||| y) &&& m = (x &&& m) ||| (y &&& m) := by
  apply Nat.eq_of_testBit_eq
  intro i
  rw [Nat.testBit_and, Nat.testBit_or, Nat.testBit_or, Nat.testBit_and,
    Nat.testBit_and]
  cases x.testBit i <;> cases y.testBit i <;> cases m.testBit i <;> rfl

lemma shiftLeft_shiftRight_cancel (v s : Nat) : (v <<< s) >>> s = v := by
  rw [Nat.shiftLeft_eq, Nat.shiftRight_eq_div_pow]
  exact Nat.mul_div_cancel _ (Nat.pow_pos (by norm_num))

/-- Shifting the masked value down by the mask's shift amount and back up
loses nothing: the mask has no set bits below the shift amount. -/
lemma masked_shift_cancel (m b : Nat) (hm : m < 256) (hm0 : m ≠ 0) :
    ((b &&& m) >>> shift_amount m) <<< shift_amount m = b &&& m := by
  apply Nat.eq_of_testBit_eq
  intro i
  rw [Nat.testBit_shiftLeft, Nat.testBit_shiftRight]
  by_cases h : shift_amount m ≤ i
  · have h2 : shift_amount m + (i - shift_amount m) = i := by omega
    simp [h, h2, ge_iff_le]
  · have hmi : m.testBit i = false :=
      shift_amount_testBit_false m hm hm0 i (by omega)
    simp [h, ge_iff_le, Nat.testBit_and, hmi]

/-- A byte split by a mask into its kept part and its field part
reassembles to itself. -/
lemma byte_or_complement (m b : Nat) (hb : b < 256) :
    (b &&& (255 ^^^ m)) ||| (b &&& m) = b := by
  apply Nat.eq_of_testBit_eq
  intro i
  rw [Nat.testBit_or, Nat.testBit_and, Nat.testBit_and, Nat.testBit_xor,
    show (255 : Nat) = 2 ^ 8 - 1 from rfl, Nat.testBit_two_pow_sub_one]
  by_cases h8 : i < 8
  · rw [decide_eq_true h8]
    cases m.testBit i <;> cases b.testBit i <;> rfl
  · have h2 : (2 : Nat) ^ 8 ≤ 2 ^ i :=
      Nat.pow_le_pow_right (by norm_num) (by omega)
    have hbi : b.testBit i = false :=
      Nat.testBit_lt_two_pow (lt_of_lt_of_le hb h2)
    simp [h8, hbi]

/-- C5: for every non-zero 8-bit mask `m` and every byte `b`, re-inserting
the extracted field value leaves the byte unchanged:
`insert(m, extract(m, b), b) = b`. -/
theorem insert_extract_roundtrip (m : Nat) (hm : m < 256) (hm0 : m ≠ 0)
    (b : Nat) (hb : b < 256) :
    field_insert m (field_extract m b) b = b := by
  unfold field_insert field_extract
  rw [masked_shift_cancel m b hm hm0, Nat.and_assoc, Nat.and_self,
    byte_or_complement m b hb]

/-- C5, witness: round-tripping the 5-bit SAMPLES field (mask `0x1F`)
through the byte `0xAB` leaves the byte unchanged. -/
theorem insert_extract_roundtrip_witness :
    field_insert 0x1F (field_extract 0x1F 0xAB) 0xAB = 0xAB :=
  insert_extract_roundtrip 0x1F (by decide) (by decide) 0xAB (by decide)

/-- C4, amended: for every non-zero 8-bit mask `m`, every starting byte
`b`, and every field value `v` whose shifted image fits inside the mask
(`(v <<< shift) &&& m = v <<< shift`; for the contiguous masks of the device
profile this is exactly `v < 2 ^ popcount m`), extraction after insertion
returns `v`. -/
theorem extract_insert_roundtrip (m : Nat) (hm : m < 256) (hm0 : m ≠ 0)
    (b v : Nat)
    (hv : (v <<< shift_amount m) &&& m = v <<< shift_amount m) :
    field_extract m (field_insert m v b) = v := by
  unfold field_extract field_insert
  rw [or_and_distrib]
  simp only [Nat.and_assoc]
  rw [compl_and_self m hm, Nat.and_zero, Nat.and_self, Nat.zero_or, hv,
    shiftLeft_shiftRight_cancel]

/-- C4, witness: inserting the value 7 into the contiguous 4-bit RATE field
(mask `0x0F`) of byte `0xFF` and extracting it back returns 7. -/
theorem extract_insert_roundtrip_witness :
    field_extract 0x0F (field_insert 0x0F 7 0xFF) = 7 :=
  extract_insert_roundtrip 0x0F (by decide) (by decide) 0xFF 7 (by decide)

/-- Population count (number of set bits), used by the claim's side
condition `v < 2 ^ popcount m`.  Structural recursion on a fuel argument. -/
def popcount_fuel : Nat → Nat → Nat
  | 0, _ => 0
  | fuel + 1, n => if n = 0 then 0 else n % 2 + popcount_fuel fuel (n / 2)

/-- Population count of a natural number. -/
def popcount (n : Nat) : Nat := popcount_fuel n n

/-- C4, counterexample: for the non-contiguous mask `m = 0b101` the claimed
round trip fails: `v = 3` is representable in `popcount m = 2` bits, yet
inserting it into byte `b = 0` and extracting gives 1, not 3 (the
`& mask` silently truncates the shifted value). -/
theorem extract_insert_fails_for_sparse_mask :
    popcount 5 = 2 ∧ 3 < 2 ^ popcount 5 ∧
    field_extract 5 (field_insert 5 3 0) = 1 ∧
    field_extract 5 (field_insert 5 3 0) ≠ 3 := by
  set_option maxRecDepth 2048 in decide

/-!  Little-endian signed decode (claim C8) and the scale factor (claim C3). -/

/-- Modelled from the spec: the little-endian signed 16-bit interpretation
of a byte pair, as the mathematical centered residue
`((lo + 256·hi + 2^15) mod 2^16) − 2^15`.  This is the spec-side reference
the code's decode is compared against. -/
def le_signed16 (lo hi : Nat) : Int :=
  ((lo : Int) + 256 * (hi : Int) + 32768) % 65536 - 32768

lemma or_shiftRight (a b n : Nat) :
    (a ||| b) >>> n = (a >>> n) ||| (b >>> n) := by
  apply Nat.eq_of_testBit_eq
  intro i
  rw [Nat.testBit_or, Nat.testBit_shiftRight, Nat.testBit_shiftRight,
    Nat.testBit_shiftRight, Nat.testBit_or]

/-- Combining a high byte shifted left by 8 with a low byte below 256 is
plain positional addition. -/
lemma hi_lo_or_eq_add (hi lo : Nat) (hlo : lo < 256) :
    (hi <<< 8) ||| lo = 256 * hi + lo := by
  have hmod : ((hi <<< 8) ||| lo) % 2 ^ 8 = lo := by
    rw [← Nat.and_pow_two_sub_one_eq_mod, or_and_distrib, Nat.shiftLeft_eq]
    rw [Nat.and_pow_two_sub_one_eq_mod, Nat.and_pow_two_sub_one_eq_mod,
      Nat.mul_mod_left, Nat.mod_eq_of_lt (by omega : lo < 2 ^ 8), Nat.zero_or]
  have hdiv : ((hi <<< 8) ||| lo) >>> 8 = hi := by
    rw [or_shiftRight, shiftLeft_shiftRight_cancel,
      Nat.shiftRight_eq_div_pow, Nat.div_eq_of_lt (by omega : lo < 2 ^ 8),
      Nat.or_zero]
  have h3 : ((hi <<< 8) ||| lo) >>> 8 = ((hi <<< 8) ||| lo) / 2 ^ 8 :=
    Nat.shiftRight_eq_div_pow _ 8
  calc (hi <<< 8) ||| lo
      = 2 ^ 8 * (((hi <<< 8) ||| lo) / 2 ^ 8) + ((hi <<< 8) ||| lo) % 2 ^ 8 :=
        (Nat.div_add_mod _ (2 ^ 8)).symm
    _ = 256 * hi + lo := by rw [hmod, ← h3, hdiv]; norm_num

/-- The driver's two-step decode (shift-or then conditional wrap) agrees
with the little-endian signed 16-bit interpretation on all byte pairs. -/
lemma to_signed_16bit_eq_le_signed16 (hi : Nat) (hhi : hi < 256)
    (lo : Nat) (hlo : lo < 256) :
    to_signed_16bit ((hi <<< 8) ||| lo) = le_signed16 lo hi := by
  rw [hi_lo_or_eq_add hi lo hlo]
  have htb : (256 * hi + lo) &&& 32768 =
      (if 32768 ≤ 256 * hi + lo then 32768 else 0) := by
    rw [show (32768 : Nat) = 2 ^ 15 from by norm_num, Nat.and_two_pow,
      Nat.testBit_to_div_mod]
    by_cases h : 32768 ≤ 256 * hi + lo
    · have hq : (256 * hi + lo) / 2 ^ 15 = 1 := by
        rw [show (2 : Nat) ^ 15 = 32768 from by norm_num]
        omega
      rw [hq]
      simp [h]
    · have hq : (256 * hi + lo) / 2 ^ 15 = 0 := by
        rw [show (2 : Nat) ^ 15 = 32768 from by norm_num]
        omega
      rw [hq]
      simp [h]
  unfold to_signed_16bit le_signed16
  rw [show (0x8000 : Nat) = 32768 from rfl, htb]
  by_cases h : 32768 ≤ 256 * hi + lo
  · rw [if_pos h]
    simp only [if_pos (by omega : (32768 : Nat) ≠ 0)]
    push_cast
    omega
  · rw [if_neg h]
    simp only [ite_not, if_pos rfl]
    push_cast
    omega

/-- C8: for every 6-byte block, the single-sample decode interprets the
bytes pairwise as little-endian signed 16-bit integers for X, Y, Z in that
byte order. -/
theorem get_accel_raw_little_endian_signed (b0 b1 b2 b3 b4 b5 : Nat)
    (h0 : b0 < 256) (h1 : b1 < 256) (h2 : b2 < 256) (h3 : b3 < 256)
    (h4 : b4 < 256) (h5 : b5 < 256) :
    get_accel_raw [b0, b1, b2, b3, b4, b5] =
      (le_signed16 b0 b1, le_signed16 b2 b3, le_signed16 b4 b5) := by
  show (to_signed_16bit ((b1 <<< 8) ||| b0),
        to_signed_16bit ((b3 <<< 8) ||| b2),
        to_signed_16bit ((b5 <<< 8) ||| b4)) = _
  rw [to_signed_16bit_eq_le_signed16 b1 h1 b0 h0,
    to_signed_16bit_eq_le_signed16 b3 h3 b2 h2,
    to_signed_16bit_eq_le_signed16 b5 h5 b4 h4]

/-- C8, witness: the raw block `[0x00,0x00, 0xFF,0x7F, 0x00,0x80]` decodes
to X = 0, Y = 32767 (max positive), Z = -32768 (min negative) before
scaling. -/
theorem get_accel_raw_little_endian_signed_witness :
    get_accel_raw [0x00, 0x00, 0xFF, 0x7F, 0x00, 0x80] =
      (le_signed16 0x00 0x00, le_signed16 0xFF 0x7F, le_signed16 0x00 0x80) ∧
    (le_signed16 0x00 0x00, le_signed16 0xFF 0x7F, le_signed16 0x00 0x80) =
      ((0 : Int), 32767, -32768) :=
  ⟨get_accel_raw_little_endian_signed 0x00 0x00 0xFF 0x7F 0x00 0x80
      (by decide) (by decide) (by decide) (by decide) (by decide) (by decide),
   by decide⟩

/-- C2, amended: the Range type is a closed enumeration of the five names
with 2-bit codes RANGE_FULL = 1, RANGE_16g = 3, RANGE_8g = 2, RANGE_4g = 1,
RANGE_2g = 0; RANGE_4g shares code 1 with RANGE_FULL and is its alias, so
only four codes are distinct.  Querying the full-scale magnitude succeeds
with the fixed magnitude on RANGE_16g (16), RANGE_8g (8) and RANGE_2g (2),
and fails (ValueError) on RANGE_FULL, hence also on its alias RANGE_4g. -/
theorem range_codes_and_magnitudes :
    Range.resolve ("RANGE_FULL") = some RangeMember.RANGE_FULL ∧
    Range.resolve ("RANGE_16g") = some RangeMember.RANGE_16g ∧
    Range.resolve ("RANGE_8g") = some RangeMember.RANGE_8g ∧
    Range.resolve ("RANGE_4g") = some RangeMember.RANGE_FULL ∧
    Range.resolve ("RANGE_2g") = some RangeMember.RANGE_2g ∧
    RangeMember.value RangeMember.RANGE_FULL = 0b01 ∧
    RangeMember.value RangeMember.RANGE_16g = 0b11 ∧
    RangeMember.value RangeMember.RANGE_8g = 0b10 ∧
    RangeMember.value RangeMember.RANGE_2g = 0b00 ∧
    RangeMember.g RangeMember.RANGE_16g = some 16 ∧
    RangeMember.g RangeMember.RANGE_8g = some 8 ∧
    RangeMember.g RangeMember.RANGE_2g = some 2 ∧
    RangeMember.g RangeMember.RANGE_FULL = none := by decide

/-- C2, counterexample: the five names do not denote five distinct codes —
attribute lookup of RANGE_4g yields the very member RANGE_FULL (both have
code 1) — and querying the magnitude of the member RANGE_FULL does not
succeed (`int` fails on the slice of its name). -/
theorem range_four_g_aliases_full :
    Range.resolve ("RANGE_4g") = Range.resolve ("RANGE_FULL") ∧
    RangeMember.g RangeMember.RANGE_FULL = none := by decide

/-- C3, amended: for every 6-byte block the single-sample read scales each
decoded raw count by the one fixed constant 0.0039 × 9.8 = 38.22 mm/s² per
LSB (the 3.9 mg/LSB full-resolution factor multiplied by a standard-gravity
factor 9.8), the same constant regardless of the configured Range, so the
three returned components are in m/s², not in g. -/
theorem get_accel_fixed_scale (gr gr2 : RangeMember) (data : List Nat) :
    get_accel gr data = get_accel gr2 data ∧
    get_accel gr data =
      (((get_accel_raw data).1 : ℚ) * (39 / 10000 * (49 / 5)),
       ((get_accel_raw data).2.1 : ℚ) * (39 / 10000 * (49 / 5)),
       ((get_accel_raw data).2.2 : ℚ) * (39 / 10000 * (49 / 5))) ∧
    SCALE_FACTOR = 39 / 10000 * (49 / 5) := by
  have hs : SCALE_FACTOR = 39 / 10000 * (49 / 5) := by
    norm_num [SCALE_FACTOR]
  refine ⟨rfl, ?_, hs⟩
  show (((get_accel_raw data).1 : ℚ) * SCALE_FACTOR,
        ((get_accel_raw data).2.1 : ℚ) * SCALE_FACTOR,
        ((get_accel_raw data).2.2 : ℚ) * SCALE_FACTOR) = _
  rw [hs]

/-- C3, counterexample: a raw count of 1000 (bytes `0xE8 0x03`) is scaled
to 1000 × 0.0039 × 9.8 = 38.22, not the claimed 1000 × 0.0039 = 3.9 g: the
fixed per-LSB factor is not 0.0039 g per count. -/
theorem get_accel_scale_not_g_units :
    (get_accel RangeMember.RANGE_FULL [0xE8, 0x03, 0, 0, 0, 0]).1 ≠
      1000 * (39 / 10000) ∧
    (get_accel RangeMember.RANGE_FULL [0xE8, 0x03, 0, 0, 0, 0]).1 =
      1000 * (39 / 10000) * (49 / 5) := by
  have h : (get_accel RangeMember.RANGE_FULL [0xE8, 0x03, 0, 0, 0, 0]).1 =
      ((1000 : ℤ) : ℚ) * SCALE_FACTOR := by
    show ((get_accel_raw [0xE8, 0x03, 0, 0, 0, 0]).1 : ℚ) * SCALE_FACTOR = _
    rw [show get_accel_raw [0xE8, 0x03, 0, 0, 0, 0] = (1000, 0, 0) from by
      decide]
  constructor <;> rw [h] <;> norm_num [SCALE_FACTOR]
